import Mathlib

/-!
Verification of the documentlynx document-processing pipeline.

Each section shallowly embeds one part of the Python source:

* `app/circuit_breaker.py` — the CLOSED/OPEN/HALF_OPEN circuit breaker;
* `app/services/extraction_orchestrator.py` — the job-status update helper
  (modelled from the spec; only its unit tests survive in the tree);
* `app/api_routes.py` — the final success/failure decision of
  `process_document_background`;
* `app/agents/markdown_validation_agent.py` — the validation stage and the
  robust JSON object parser;
* `app/agents/persistence_agent.py` — the persistence stage;
* `app/tools/json_tools.py` — the JSON array parser;
* `app/agents/ingestion_agent.py` — document type detection.

Machine integers do not occur on the verified paths; counters are `Nat`,
monotonic time is `Nat`, fallible operations return `Option`/`Except`.
-/

namespace Documentlynx

/-! ## Circuit breaker (`app/circuit_breaker.py`) -/

/-- The three circuit states (`CircuitState` enum). -/
inductive CircuitState where
  | CLOSED
  | OPEN
  | HALF_OPEN
deriving DecidableEq, Repr

/-- State of one `CircuitBreaker` instance.  Monotonic time is modelled as a
natural number; `recoveryTimeout` is the `recovery_timeout` constructor
argument and `failureThreshold` the `failure_threshold` argument. -/
structure CircuitBreaker where
  failureThreshold : Nat
  recoveryTimeout : Nat
  circuitState : CircuitState
  failureCount : Nat
  lastFailureTime : Nat
deriving DecidableEq, Repr

namespace CircuitBreaker

/-- `CircuitBreaker.__init__`: starts CLOSED with a zero failure count. -/
def init (failureThreshold recoveryTimeout : Nat) : CircuitBreaker :=
  { failureThreshold := failureThreshold
    recoveryTimeout := recoveryTimeout
    circuitState := .CLOSED
    failureCount := 0
    lastFailureTime := 0 }

/-- The `state` property: reading the state at time `now` moves OPEN to
HALF_OPEN once `recovery_timeout` has elapsed since the last failure, and
returns the (possibly updated) state together with the updated breaker. -/
def readState (b : CircuitBreaker) (now : Nat) : CircuitState × CircuitBreaker :=
  if b.circuitState = .OPEN ∧ now - b.lastFailureTime ≥ b.recoveryTimeout then
    (.HALF_OPEN, { b with circuitState := .HALF_OPEN })
  else
    (b.circuitState, b)

/-- `record_success`: zero the failure counter and close the circuit. -/
def recordSuccess (b : CircuitBreaker) : CircuitBreaker :=
  { b with failureCount := 0, circuitState := .CLOSED }

/-- `record_failure` at time `now`: bump the counter, remember the time, and
open the circuit once the counter reaches the threshold. -/
def recordFailure (b : CircuitBreaker) (now : Nat) : CircuitBreaker :=
  let count := b.failureCount + 1
  { b with
    failureCount := count
    lastFailureTime := now
    circuitState := if count ≥ b.failureThreshold then .OPEN else b.circuitState }

/-- Apply `record_failure` once per time in `ts`, in order: a run of
consecutive failures with no intervening success. -/
def recordFailures (b : CircuitBreaker) (ts : List Nat) : CircuitBreaker :=
  ts.foldl recordFailure b

/-- Invariant relating the circuit state to the consecutive-failure count:
holds for a fresh breaker and is preserved by `record_failure`. -/
def CountInv (b : CircuitBreaker) : Prop :=
  b.circuitState =
    if b.failureCount ≥ b.failureThreshold ∧ 1 ≤ b.failureCount then .OPEN else .CLOSED

end CircuitBreaker

theorem recordFailure_count (b : CircuitBreaker) (t : Nat) :
    (b.recordFailure t).failureCount = b.failureCount + 1 := rfl

theorem recordFailure_threshold (b : CircuitBreaker) (t : Nat) :
    (b.recordFailure t).failureThreshold = b.failureThreshold := rfl

theorem recordFailures_count (ts : List Nat) (b : CircuitBreaker) :
    (b.recordFailures ts).failureCount = b.failureCount + ts.length := by
  induction ts generalizing b with
  | nil => simp [CircuitBreaker.recordFailures]
  | cons t ts ih =>
    have : b.recordFailures (t :: ts) = (b.recordFailure t).recordFailures ts := rfl
    rw [this, ih, recordFailure_count]
    simp
    omega

theorem recordFailures_threshold (ts : List Nat) (b : CircuitBreaker) :
    (b.recordFailures ts).failureThreshold = b.failureThreshold := by
  induction ts generalizing b with
  | nil => rfl
  | cons t ts ih =>
    have : b.recordFailures (t :: ts) = (b.recordFailure t).recordFailures ts := rfl
    rw [this, ih, recordFailure_threshold]

theorem recordFailure_countInv (b : CircuitBreaker) (t : Nat)
    (h : CircuitBreaker.CountInv b) : CircuitBreaker.CountInv (b.recordFailure t) := by
  unfold CircuitBreaker.CountInv at *
  rw [recordFailure_count, recordFailure_threshold]
  by_cases hth : b.failureCount + 1 ≥ b.failureThreshold
  · simp [CircuitBreaker.recordFailure, hth]
  · have hlt : ¬ (b.failureCount ≥ b.failureThreshold ∧ 1 ≤ b.failureCount) := by
      intro ⟨h1, _⟩; omega
    simp only [CircuitBreaker.recordFailure]
    simp [hth, hlt] at *
    simpa [hth] using h

theorem recordFailures_countInv (ts : List Nat) (b : CircuitBreaker)
    (h : CircuitBreaker.CountInv b) : CircuitBreaker.CountInv (b.recordFailures ts) := by
  induction ts generalizing b with
  | nil => exact h
  | cons t ts ih =>
    have : b.recordFailures (t :: ts) = (b.recordFailure t).recordFailures ts := rfl
    rw [this]
    exact ih _ (recordFailure_countInv b t h)

/-- Helper: the circuit state of a fresh breaker after `ts` consecutive
failures, as dictated by the failure count. -/
theorem fresh_failures_state (threshold timeout : Nat) (ts : List Nat) :
    ((CircuitBreaker.init threshold timeout).recordFailures ts).circuitState =
      if ts.length ≥ threshold ∧ 1 ≤ ts.length then .OPEN else .CLOSED := by
  have hinv : CircuitBreaker.CountInv (CircuitBreaker.init threshold timeout) := by
    simp [CircuitBreaker.CountInv, CircuitBreaker.init]
  have h := recordFailures_countInv ts _ hinv
  unfold CircuitBreaker.CountInv at h
  rw [recordFailures_count, recordFailures_threshold] at h
  simpa [CircuitBreaker.init] using h

/-- **C3.** The circuit breaker starts in CLOSED; after exactly
`failure_threshold` consecutive recorded failures it is OPEN (and after fewer
it is still CLOSED); once `recovery_timeout` has elapsed since the last
recorded failure, a read of the state transitions OPEN to HALF_OPEN; and a
recorded success from HALF_OPEN returns it to CLOSED and resets the failure
counter to zero. -/
theorem circuit_breaker_lifecycle
    (threshold timeout : Nat) (ht : 1 ≤ threshold) (ts : List Nat) (now : Nat)
    (b : CircuitBreaker) :
    (CircuitBreaker.init threshold timeout).circuitState = .CLOSED
    ∧ (ts.length = threshold →
        ((CircuitBreaker.init threshold timeout).recordFailures ts).circuitState = .OPEN)
    ∧ (ts.length < threshold →
        ((CircuitBreaker.init threshold timeout).recordFailures ts).circuitState = .CLOSED)
    ∧ (b.circuitState = .OPEN → now - b.lastFailureTime ≥ b.recoveryTimeout →
        (b.readState now).1 = .HALF_OPEN ∧ (b.readState now).2.circuitState = .HALF_OPEN)
    ∧ (b.circuitState = .HALF_OPEN →
        b.recordSuccess.circuitState = .CLOSED ∧ b.recordSuccess.failureCount = 0) := by
  refine ⟨rfl, ?_, ?_, ?_, ?_⟩
  · intro hlen
    rw [fresh_failures_state]
    have : ts.length ≥ threshold ∧ 1 ≤ ts.length := by omega
    simp [this]
  · intro hlen
    rw [fresh_failures_state]
    have : ¬ (ts.length ≥ threshold ∧ 1 ≤ ts.length) := by omega
    simp [this]
  · intro hopen helapsed
    simp [CircuitBreaker.readState, hopen, helapsed]
  · intro _
    exact ⟨rfl, rfl⟩

/-- Witness for `circuit_breaker_lifecycle` at threshold 2, timeout 60: two
failures open the circuit, one does not, a read 90 ticks later half-opens it,
and a success from HALF_OPEN closes it and zeroes the counter. -/
theorem circuit_breaker_lifecycle_witness :
    (CircuitBreaker.init 2 60).circuitState = .CLOSED ∧
    ((CircuitBreaker.init 2 60).recordFailures [3, 4]).circuitState = .OPEN ∧
    ((CircuitBreaker.init 2 60).recordFailures [3]).circuitState = .CLOSED ∧
    ((⟨2, 60, .OPEN, 2, 10⟩ : CircuitBreaker).readState 100).1 = .HALF_OPEN ∧
    ((⟨2, 60, .HALF_OPEN, 0, 10⟩ : CircuitBreaker).recordSuccess).circuitState = .CLOSED ∧
    ((⟨2, 60, .HALF_OPEN, 0, 10⟩ : CircuitBreaker).recordSuccess).failureCount = 0 := by
  have h1 := circuit_breaker_lifecycle 2 60 (by decide) [3, 4] 100
    (⟨2, 60, .OPEN, 2, 10⟩ : CircuitBreaker)
  have h2 := circuit_breaker_lifecycle 2 60 (by decide) [3] 100
    (⟨2, 60, .HALF_OPEN, 0, 10⟩ : CircuitBreaker)
  refine ⟨h1.1, h1.2.1 (by decide), h2.2.2.1 (by decide),
          (h1.2.2.2.1 (by decide) (by decide)).1,
          (h2.2.2.2.2 (by decide)).1, (h2.2.2.2.2 (by decide)).2⟩

/-! ## Job Registry status update (orchestrator helper) -/

/-- Observable outcome of one job-status update: how many storage attempts
were made, whether a critical-severity log line was emitted, and whether a
write eventually succeeded. -/
structure UpdateStatusOutcome where
  attempts : Nat
  criticalLogged : Bool
  succeeded : Bool
deriving DecidableEq, Repr

/-- One `JobService.update_status` call, attempt number `k`.  The oracle says
whether the storage write succeeds (`true`) or raises a transient storage
failure (`false`, modelled as an `Except.error`). -/
def jobUpdateAttempt (oracle : Nat → Bool) (k : Nat) : Except String Unit :=
  if oracle k then .ok () else .error "transient storage failure"

/-- Modelled from the spec: the orchestrator's `_update_job_status` helper is
absent from the source tree — only its unit tests
(`tests/test_orchestrator.py`) remain.  Per spec §4.2 it must itself retry the
Job Registry status write on transient storage failure (the tests pin three
total attempts), log at critical severity if all attempts are exhausted, and
never let the failure escape.  `n` counts the attempts still allowed, `k` the
attempts already made; each raised storage failure is caught and retried. -/
def updateStatusGo (oracle : Nat → Bool) : Nat → Nat → Except String UpdateStatusOutcome
  | 0, k => .ok { attempts := k, criticalLogged := true, succeeded := false }
  | n + 1, k =>
    match jobUpdateAttempt oracle k with
    | .ok _ => .ok { attempts := k + 1, criticalLogged := false, succeeded := true }
    | .error _ => updateStatusGo oracle n (k + 1)

/-- Modelled from the spec: `_update_job_status` makes up to 3 storage
attempts in total, starting at attempt 0. -/
def updateJobStatus (oracle : Nat → Bool) : Except String UpdateStatusOutcome :=
  updateStatusGo oracle 3 0

/-- **C1.** The Job Registry status-update helper itself retries on transient
storage failure up to 3 attempts in total, logs at critical severity exactly
when all attempts are exhausted, and never propagates the failure (the result
is always `.ok`, so a failing status update cannot abort the pipeline). -/
theorem job_status_update_resilient (oracle : Nat → Bool) :
    ∃ o : UpdateStatusOutcome,
      updateJobStatus oracle = .ok o
      ∧ o.attempts ≤ 3
      ∧ o.attempts = (if oracle 0 then 1 else if oracle 1 then 2 else 3)
      ∧ o.succeeded = (oracle 0 || oracle 1 || oracle 2)
      ∧ o.criticalLogged = (!oracle 0 && !oracle 1 && !oracle 2) := by
  by_cases h0 : oracle 0 = true
  · exact ⟨⟨1, false, true⟩,
      by simp [updateJobStatus, updateStatusGo, jobUpdateAttempt, h0]⟩
  · by_cases h1 : oracle 1 = true
    · refine ⟨⟨2, false, true⟩, ?_⟩
      simp only [Bool.not_eq_true] at h0
      simp [updateJobStatus, updateStatusGo, jobUpdateAttempt, h0, h1]
    · by_cases h2 : oracle 2 = true
      · refine ⟨⟨3, false, true⟩, ?_⟩
        simp only [Bool.not_eq_true] at h0 h1
        simp [updateJobStatus, updateStatusGo, jobUpdateAttempt, h0, h1, h2]
      · refine ⟨⟨3, true, false⟩, ?_⟩
        simp only [Bool.not_eq_true] at h0 h1 h2
        simp [updateJobStatus, updateStatusGo, jobUpdateAttempt, h0, h1, h2]

/-! ## Final job outcome (`process_document_background`, `app/api_routes.py`) -/

/-- Python truthiness of an optional string: `None` and `""` are falsy. -/
def truthy : Option String → Bool
  | none => false
  | some s => !(s = "")

/-- The pipeline fields that `process_document_background` inspects after the
graph finishes. -/
structure FinalState where
  cleaned_markdown : Option String
  parsed_markdown : Option String
  raw_content : Option String
  error_message : Option String
  document_id : Option String
  question_ids : Option (List String)
deriving DecidableEq, Repr

/-- `has_content`: any of the three Markdown variants is truthy. -/
def hasContent (s : FinalState) : Bool :=
  truthy s.cleaned_markdown || truthy s.parsed_markdown || truthy s.raw_content

/-- The terminal Job Registry write chosen for the run. -/
inductive JobOutcome where
  | failed (message : String)
  | completed (documentId : Option String) (questionCount : Nat)
deriving DecidableEq, Repr

/-- The fixed no-content failure message from `process_document_background`. -/
def noContentMessage : String :=
  "Processing failed: No content extracted from document. The source URL may be invalid or expired."

/-- The soft-failure decision at the end of `process_document_background`:
an explicit `error_message` fails the job with that message; otherwise no
document and no content fails it with `noContentMessage`; otherwise the job
completes with the document id and the question count. -/
def jobOutcome (s : FinalState) : JobOutcome :=
  if truthy s.error_message then .failed (s.error_message.getD "")
  else if truthy s.document_id = false ∧ hasContent s = false then .failed noContentMessage
  else .completed (if truthy s.document_id then s.document_id else none)
    ((s.question_ids.getD []).length)

/-- **C2 (counterexample).** A run that ends with no document and no Markdown
but with an explicit `error_message` on the state is failed with that message,
not with the fixed no-content message — refuting the claim that every such
run gets exactly the no-content message. -/
theorem job_outcome_counterexample :
    truthy (FinalState.mk none none none (some "boom") none none).document_id = false
    ∧ hasContent (FinalState.mk none none none (some "boom") none none) = false
    ∧ jobOutcome (FinalState.mk none none none (some "boom") none none) = .failed "boom"
    ∧ .failed "boom" ≠ JobOutcome.failed noContentMessage := by
  refine ⟨rfl, rfl, rfl, ?_⟩
  intro h
  simp only [JobOutcome.failed.injEq] at h
  exact absurd h (by decide)

/-- **C2 (amended).** For every pipeline run whose final state carries no
truthy `error_message`: if no document was created and no Markdown was
produced, the job is failed with exactly the no-content message; otherwise it
is completed with the document id and the question count.  (A run with an
explicit `error_message` is instead failed with that message.) -/
theorem job_outcome_amended (s : FinalState) (h : truthy s.error_message = false) :
    (truthy s.document_id = false ∧ hasContent s = false →
      jobOutcome s = .failed noContentMessage)
    ∧ (truthy s.document_id = true ∨ hasContent s = true →
      jobOutcome s = .completed (if truthy s.document_id then s.document_id else none)
        ((s.question_ids.getD []).length)) := by
  constructor
  · intro hc
    simp [jobOutcome, h, hc]
  · intro hc
    have : ¬ (truthy s.document_id = false ∧ hasContent s = false) := by
      rcases hc with hc | hc <;> simp [hc]
    simp [jobOutcome, h, this]

/-- Witness for `job_outcome_amended`: an error-free run with raw content and
a document completes; an error-free run with nothing fails with the fixed
message. -/
theorem job_outcome_amended_witness :
    jobOutcome (FinalState.mk none none (some "# md") none (some "d1") (some ["q1", "q2"]))
      = .completed (some "d1") 2
    ∧ jobOutcome (FinalState.mk none none none none none none) = .failed noContentMessage := by
  have h1 := job_outcome_amended
    (FinalState.mk none none (some "# md") none (some "d1") (some ["q1", "q2"])) rfl
  have h2 := job_outcome_amended (FinalState.mk none none none none none none) rfl
  exact ⟨h1.2 (Or.inl rfl), h2.1 ⟨rfl, rfl⟩⟩

/-! ## Markdown validation stage (`app/agents/markdown_validation_agent.py`) -/

/-- Projection of the dict returned by the validator's JSON parse onto the
four recognised keys; `otherKeys` records whether the dict carries any other
key (so that Python dict truthiness is preserved). -/
structure LLMParsed where
  score : Option Int
  passed : Option Bool
  issues : Option (List String)
  recommendation : Option String
  otherKeys : Bool
deriving DecidableEq, Repr

/-- Python truthiness of the parsed dict: non-empty. -/
def dictTruthy (r : LLMParsed) : Bool :=
  r.score.isSome || r.passed.isSome || r.issues.isSome || r.recommendation.isSome
    || r.otherKeys

/-- `MarkdownValidationAgent.passing_score`. -/
def passingScore : Int := 70

/-- `settings.max_validation_attempts` default (`app/config.py`). -/
def maxValidationAttemptsDefault : Nat := 3

/-- The tail of `_validate_with_llm`: when the parsed result has a `score`
but no `passed`, infer `passed = (score >= passing_score)`. -/
def resolvePassed (r : LLMParsed) : LLMParsed :=
  if r.score.isSome ∧ r.passed = none then
    { r with passed := some (decide (passingScore ≤ r.score.getD 0)) }
  else r

/-- `_validate_with_llm`: `none` when the LLM call raises, the parse finds
nothing, or the parsed dict is falsy (empty); otherwise the parsed dict with
`passed` inferred from `score` when missing. -/
def validateWithLLM (llmCallOk : Bool) (parseResult : Option LLMParsed) :
    Option LLMParsed :=
  if llmCallOk = false then none
  else
    match parseResult with
    | none => none
    | some r => if dictTruthy r then some (resolvePassed r) else none

/-- One entry of the converter-option override dicts: only the keys that
`DOCLING_RETRY_CONFIGS` uses are represented, each optional (dict key absent
= `none`). -/
structure DoclingConfig where
  pdf_backend : Option String
  force_ocr : Option Bool
  ocr_engine : Option String
  do_formula_enrichment : Option Bool
deriving DecidableEq, Repr

/-- `DOCLING_RETRY_CONFIGS`: the override for conversion attempt 2, then the
override for conversion attempt 3. -/
def DOCLING_RETRY_CONFIGS : List DoclingConfig :=
  [ { pdf_backend := some "dlparse_v4"
      force_ocr := some true
      ocr_engine := some "tesseract"
      do_formula_enrichment := none },
    { pdf_backend := some "dlparse_v2"
      force_ocr := some true
      ocr_engine := some "easyocr"
      do_formula_enrichment := some true } ]

/-- `_get_next_docling_config`: attempt 1 used the defaults, so
`DOCLING_RETRY_CONFIGS[current_attempt - 1]` (or nothing when past the end). -/
def getNextDoclingConfig (currentAttempt : Nat) : Option DoclingConfig :=
  DOCLING_RETRY_CONFIGS.get? (currentAttempt - 1)

/-- The fields of the pipeline state that the validation stage reads or
writes; the three `metadata` entries it touches are split out. -/
structure VState where
  validationAttempts : Nat
  validationPassed : Bool
  doclingOptions : Option DoclingConfig
  sourceFilePath : Option String
  status : String
  metaValidationScore : Option Int
  metaValidationIssues : Option (List String)
  metaRetryConfig : Option DoclingConfig
  metaMaxAttemptsReached : Option Bool
deriving DecidableEq, Repr

/-- The external world as the validation stage observes it during one
`process` call. -/
structure VEnv where
  zipOk : Bool                    -- `output_zip_path` set and the file exists
  zipMarkdown : String            -- markdown found in the ZIP ("" when none)
  llmCallOk : Bool                -- LLM invocation and prompt build do not raise
  parseResult : Option LLMParsed  -- `parse_json_safely` output
  cleanupOk : Bool                -- `cleanup_temp_file` does not raise
deriving DecidableEq, Repr

/-- `_cleanup_source_file`: clear the path when it is truthy and the removal
does not raise (on an exception the path stays on the state). -/
def cleanupSourceFile (env : VEnv) (s : VState) : VState :=
  match s.sourceFilePath with
  | some p => if p ≠ "" ∧ env.cleanupOk then { s with sourceFilePath := none } else s
  | none => s

/-- `MarkdownValidationAgent.process`: bump the attempt counter, bail out
(failing validation) when the ZIP or its markdown is missing, otherwise score
via the LLM; a missing LLM verdict passes by default; a failing verdict below
the attempt limit installs the next converter-option override; passing or
exhausting the limit cleans up the source file, and exhaustion forces the
pipeline onward recording `max_attempts_reached`. -/
def validationProcess (maxAttempts : Nat) (env : VEnv) (s0 : VState) : VState :=
  let att := s0.validationAttempts + 1
  let s := { s0 with status := "validating", validationAttempts := att }
  if env.zipOk = false then { s with validationPassed := false }
  else if env.zipMarkdown = "" then { s with validationPassed := false }
  else
    let s :=
      match validateWithLLM env.llmCallOk env.parseResult with
      | some r =>
        let passed := r.passed.getD false
        let s := { s with
          validationPassed := passed
          metaValidationScore := some (r.score.getD 0)
          metaValidationIssues := some (r.issues.getD []) }
        if passed = false ∧ att < maxAttempts then
          match getNextDoclingConfig att with
          | some cfg => { s with doclingOptions := some cfg, metaRetryConfig := some cfg }
          | none => s
        else s
      | none => { s with validationPassed := true }
    if s.validationPassed = true ∨ maxAttempts ≤ att then
      let s := cleanupSourceFile env s
      if s.validationPassed = false then
        { s with validationPassed := true, metaMaxAttemptsReached := some true }
      else s
    else s

/-- **C4.** When the validator reports `passed = false` and the on-state
attempt count has reached `max_attempts` (default 3), the stage forces
`validation_passed = true`, records `max_attempts_reached = true` in the
state metadata, and cleans up the source file. -/
theorem validation_exhaustion_forces_pass
    (maxAttempts : Nat) (env : VEnv) (s0 : VState) (r : LLMParsed)
    (hzip : env.zipOk = true) (hmd : env.zipMarkdown ≠ "")
    (hllm : env.llmCallOk = true) (hparse : env.parseResult = some r)
    (htruthy : dictTruthy r = true)
    (hfail : (resolvePassed r).passed.getD false = false)
    (hatt : maxAttempts ≤ s0.validationAttempts + 1)
    (hclean : env.cleanupOk = true)
    (hsrc : s0.sourceFilePath ≠ some "") :
    (validationProcess maxAttempts env s0).validationPassed = true
    ∧ (validationProcess maxAttempts env s0).metaMaxAttemptsReached = some true
    ∧ (validationProcess maxAttempts env s0).sourceFilePath = none
    ∧ maxValidationAttemptsDefault = 3 := by
  have hnotlt : ¬ (s0.validationAttempts + 1 < maxAttempts) := by omega
  unfold validationProcess
  simp only [hzip, hmd, hllm, hparse, validateWithLLM, htruthy, if_true, if_false,
    Bool.true_eq_false, reduceIte, hfail, hnotlt, and_false, if_neg, not_false_eq_true]
  simp [hfail, hatt, hnotlt, cleanupSourceFile, hclean]
  cases hs : s0.sourceFilePath with
  | none => simp [maxValidationAttemptsDefault]
  | some p =>
    have : p ≠ "" := by intro h; exact hsrc (by rw [hs, h])
    simp [this, maxValidationAttemptsDefault]

/-- Witness for `validation_exhaustion_forces_pass`: third attempt, score 30,
`passed = false` — the stage proceeds anyway, records the exhaustion and
removes the source file. -/
theorem validation_exhaustion_witness :
    (validationProcess 3
      ⟨true, "# md", true, some ⟨some 30, some false, some [], some "", false⟩, true⟩
      ⟨2, false, none, some "/tmp/src.pdf", "parsing", none, none, none, none⟩).validationPassed
        = true
    ∧ (validationProcess 3
      ⟨true, "# md", true, some ⟨some 30, some false, some [], some "", false⟩, true⟩
      ⟨2, false, none, some "/tmp/src.pdf", "parsing", none, none, none,
        none⟩).metaMaxAttemptsReached = some true
    ∧ (validationProcess 3
      ⟨true, "# md", true, some ⟨some 30, some false, some [], some "", false⟩, true⟩
      ⟨2, false, none, some "/tmp/src.pdf", "parsing", none, none, none,
        none⟩).sourceFilePath = none := by
  have h := validation_exhaustion_forces_pass 3
    ⟨true, "# md", true, some ⟨some 30, some false, some [], some "", false⟩, true⟩
    ⟨2, false, none, some "/tmp/src.pdf", "parsing", none, none, none, none⟩
    ⟨some 30, some false, some [], some "", false⟩
    rfl (by decide) rfl rfl (by decide) (by decide) (by decide) rfl (by decide)
  exact ⟨h.1, h.2.1, h.2.2.1⟩

/-- **C6.** When validation reports `passed = false` with attempts below the
limit, the stage writes the next converter-option override to
`docling_options`: after the first failed attempt the override used for
conversion attempt 2 is `{pdf_backend: dlparse_v4, force_ocr: true,
ocr_engine: tesseract}`, and after the second the override for attempt 3 is
`{pdf_backend: dlparse_v2, force_ocr: true, ocr_engine: easyocr,
do_formula_enrichment: true}`. -/
theorem validation_retry_config_overrides
    (env : VEnv) (s0 : VState) (r : LLMParsed)
    (hzip : env.zipOk = true) (hmd : env.zipMarkdown ≠ "")
    (hllm : env.llmCallOk = true) (hparse : env.parseResult = some r)
    (htruthy : dictTruthy r = true)
    (hfail : (resolvePassed r).passed.getD false = false) :
    (s0.validationAttempts = 0 →
      (validationProcess 3 env s0).doclingOptions =
        some { pdf_backend := some "dlparse_v4", force_ocr := some true,
               ocr_engine := some "tesseract", do_formula_enrichment := none })
    ∧ (s0.validationAttempts = 1 →
      (validationProcess 3 env s0).doclingOptions =
        some { pdf_backend := some "dlparse_v2", force_ocr := some true,
               ocr_engine := some "easyocr", do_formula_enrichment := some true }) := by
  constructor
  · intro h0
    unfold validationProcess
    simp [hzip, hmd, hllm, hparse, validateWithLLM, htruthy, hfail, h0,
      getNextDoclingConfig, DOCLING_RETRY_CONFIGS]
  · intro h1
    unfold validationProcess
    simp [hzip, hmd, hllm, hparse, validateWithLLM, htruthy, hfail, h1,
      getNextDoclingConfig, DOCLING_RETRY_CONFIGS]

/-- Witness for `validation_retry_config_overrides`: first and second failed
attempts install the tesseract and easyocr overrides respectively. -/
theorem validation_retry_config_witness :
    (validationProcess 3
      ⟨true, "# md", true, some ⟨some 40, some false, some [], some "", false⟩, true⟩
      ⟨0, false, none, some "/tmp/src.pdf", "parsing", none, none, none,
        none⟩).doclingOptions =
      some { pdf_backend := some "dlparse_v4", force_ocr := some true,
             ocr_engine := some "tesseract", do_formula_enrichment := none }
    ∧ (validationProcess 3
      ⟨true, "# md", true, some ⟨some 40, some false, some [], some "", false⟩, true⟩
      ⟨1, false, none, some "/tmp/src.pdf", "parsing", none, none, none,
        none⟩).doclingOptions =
      some { pdf_backend := some "dlparse_v2", force_ocr := some true,
             ocr_engine := some "easyocr", do_formula_enrichment := some true } := by
  have ha := validation_retry_config_overrides
    ⟨true, "# md", true, some ⟨some 40, some false, some [], some "", false⟩, true⟩
    ⟨0, false, none, some "/tmp/src.pdf", "parsing", none, none, none, none⟩
    ⟨some 40, some false, some [], some "", false⟩
    rfl (by decide) rfl rfl (by decide) (by decide)
  have hb := validation_retry_config_overrides
    ⟨true, "# md", true, some ⟨some 40, some false, some [], some "", false⟩, true⟩
    ⟨1, false, none, some "/tmp/src.pdf", "parsing", none, none, none, none⟩
    ⟨some 40, some false, some [], some "", false⟩
    rfl (by decide) rfl rfl (by decide) (by decide)
  exact ⟨ha.1 rfl, hb.2 rfl⟩

/-- **C7.** For every parsed validator response with a `score` but no
`passed` field, the stage infers `passed = (score >= 70)`; in particular a
score of exactly 70 yields `passed = true`. -/
theorem passed_inferred_from_score (r : LLMParsed) (sc : Int)
    (hs : r.score = some sc) (hp : r.passed = none) :
    (resolvePassed r).passed = some (decide (70 ≤ sc))
    ∧ (sc = 70 → (resolvePassed r).passed = some true) := by
  have hcond : r.score.isSome ∧ r.passed = none := ⟨by simp [hs], hp⟩
  constructor
  · simp [resolvePassed, hcond, hs, passingScore]
  · intro h70
    simp [resolvePassed, hcond, hs, passingScore, h70]

/-- Witness for `passed_inferred_from_score` at score exactly 70. -/
theorem passed_inferred_from_score_witness :
    (resolvePassed ⟨some 70, none, none, none, false⟩).passed = some true :=
  (passed_inferred_from_score ⟨some 70, none, none, none, false⟩ 70 rfl rfl).2 rfl

/-! ## Persistence stage (`app/agents/persistence_agent.py`) -/

/-- One question entry parsed from the LLM extraction response. -/
structure QData where
  questionNumber : Option Int
  questionText : Option String
  questionType : Option String
deriving DecidableEq, Repr

/-- A single-quote string built without an apostrophe literal. -/
def singleQuote : String := String.singleton (Char.ofNat 39)

/-- One pass of `_replace_image_paths` for a single `(local_path, public_url)`
pair: markdown image syntax, double-quoted and single-quoted HTML `src`. -/
def replaceOne (md : String) (kv : String × String) : String :=
  let md := md.replace ("](" ++ kv.1 ++ ")") ("](" ++ kv.2 ++ ")")
  let md := md.replace ("src=\"" ++ kv.1 ++ "\"") ("src=\"" ++ kv.2 ++ "\"")
  md.replace ("src=" ++ singleQuote ++ kv.1 ++ singleQuote)
    ("src=" ++ singleQuote ++ kv.2 ++ singleQuote)

/-- `_replace_image_paths`: identity on an empty mapping, otherwise replace
pair by pair, longest local path first. -/
def replaceImagePaths (md : String) (mapping : List (String × String)) : String :=
  if mapping = [] then md
  else (mapping.mergeSort (fun a b => b.1.length ≤ a.1.length)).foldl replaceOne md

/-- The pipeline-state fields the persistence stage reads or writes. -/
structure PState where
  status : String
  errorMessage : Option String
  cleanedMarkdown : Option String
  outputZipPath : Option String
  publicMarkdown : Option String
  documentId : Option String
  questionIds : Option (List String)
  metaQuestionCount : Option Nat
deriving DecidableEq, Repr

/-- The points at which the stage's database / storage work can raise. -/
inductive PFail where
  | uploadImages
  | docInsert
  | questionInsert (i : Nat)
  | commit
deriving DecidableEq, Repr

/-- The external world as the persistence stage observes it during one
`process` call. -/
structure PEnv where
  zipExists : Bool                      -- `Path(output_zip_path).exists()`
  zipMarkdown : Option String           -- `_extract_markdown_from_zip` result
  urlMapping : List (String × String)   -- `upload_images_from_zip` result
  questionsData : List QData            -- `_extract_questions_with_llm` result
  failAt : Option PFail                 -- which operation (if any) raises
  docId : String                        -- id the database assigns at doc flush
  questionId : Nat → String             -- ids the database assigns per question

/-- What one `process` call leaves behind: the state plus the rows actually
committed and whether the transaction was rolled back. -/
structure PResult where
  state : PState
  committedDocs : Nat
  committedQuestions : Nat
  rolledBack : Bool
  failedAt : Option PFail

/-- The `except` clause of `PersistenceAgent.process`: roll back, set
`error_message`, mark the state failed; nothing is committed. -/
def persistExcept (s : PState) (msg : String) (fp : PFail) : PResult :=
  { state := { s with
      errorMessage := some ("Error during persistence: " ++ msg)
      status := "failed" }
    committedDocs := 0
    committedQuestions := 0
    rolledBack := true
    failedAt := some fp }

/-- `PersistenceAgent.process`: upload images (when the ZIP is present), fall
back from `cleaned_markdown` to the ZIP's markdown, return silently with
status `completed` when neither is truthy, otherwise rewrite image paths,
flush a Document (placing its id on the state), flush the Questions, and
commit; any raise along the way takes the `except` path. -/
def persistenceProcess (env : PEnv) (s0 : PState) : PResult :=
  let s := { s0 with status := "persisting" }
  let zipPresent := truthy s.outputZipPath = true ∧ env.zipExists = true
  if zipPresent ∧ env.failAt = some .uploadImages then
    persistExcept s "image upload failed" .uploadImages
  else
    let mapping := if zipPresent then env.urlMapping else []
    let md := if truthy s.cleanedMarkdown then s.cleanedMarkdown else env.zipMarkdown
    if truthy md = false then
      { state := { s with status := "completed" }
        committedDocs := 0
        committedQuestions := 0
        rolledBack := false
        failedAt := none }
    else
      let s := { s with publicMarkdown := some (replaceImagePaths (md.getD "") mapping) }
      let questions := env.questionsData
      if env.failAt = some .docInsert then
        persistExcept s "document flush failed" .docInsert
      else
        let s := { s with documentId := some env.docId }
        match env.failAt with
        | some (.questionInsert i) =>
          if i < questions.length then
            persistExcept s "question flush failed" (.questionInsert i)
          else
            { state := { s with
                questionIds := some ((List.range questions.length).map env.questionId)
                metaQuestionCount := some questions.length
                status := "completed" }
              committedDocs := 1
              committedQuestions := questions.length
              rolledBack := false
              failedAt := none }
        | some .commit => persistExcept s "commit failed" .commit
        | _ =>
          { state := { s with
              questionIds := some ((List.range questions.length).map env.questionId)
              metaQuestionCount := some questions.length
              status := "completed" }
            committedDocs := 1
            committedQuestions := questions.length
            rolledBack := false
            failedAt := none }

/-- Environment for the C5 counterexample: everything succeeds up to the
commit, which raises. -/
def persistCexEnv : PEnv :=
  { zipExists := true
    zipMarkdown := some "# doc"
    urlMapping := []
    questionsData := []
    failAt := some .commit
    docId := "doc-1"
    questionId := fun i => "q" ++ toString i }

/-- Input state for the C5 counterexample. -/
def persistCexState : PState :=
  ⟨"validating", none, none, some "/tmp/out.zip", none, none, none, none⟩

/-- **C5 (counterexample).** A persistence run that fails at the commit —
after the Document row was flushed — takes the failure path (rollback, error
message) but leaves `document_id` SET on the state, refuting the claim that
`document_id` is left unset on any failure. -/
theorem persistence_commit_failure_leaves_document_id :
    (persistenceProcess persistCexEnv persistCexState).failedAt = some .commit
    ∧ (persistenceProcess persistCexEnv persistCexState).rolledBack = true
    ∧ (persistenceProcess persistCexEnv persistCexState).state.documentId = some "doc-1"
    ∧ (persistenceProcess persistCexEnv persistCexState).state.documentId ≠ none := by
  refine ⟨rfl, rfl, rfl, ?_⟩
  intro h
  simp [persistenceProcess, persistCexEnv, persistCexState, truthy, persistExcept] at h

/-- **C5 (amended).** If the persistence stage fails after starting its
database work, the transaction is rolled back (nothing is committed), the
state's `error_message` is set, its status becomes `failed`, and
`question_ids` is left unset; `document_id` is left unset exactly when the
failure occurs before the Document row is flushed (image upload or document
flush) — a later failure (question flush, commit) leaves the rolled-back
document's id on the state. -/
theorem persistence_failure_rollback (env : PEnv) (s0 : PState) (fp : PFail)
    (hq : s0.questionIds = none) (hd : s0.documentId = none)
    (hfail : (persistenceProcess env s0).failedAt = some fp) :
    (persistenceProcess env s0).rolledBack = true
    ∧ (persistenceProcess env s0).state.status = "failed"
    ∧ (persistenceProcess env s0).state.errorMessage.isSome = true
    ∧ (persistenceProcess env s0).committedDocs = 0
    ∧ (persistenceProcess env s0).committedQuestions = 0
    ∧ (persistenceProcess env s0).state.questionIds = none
    ∧ ((persistenceProcess env s0).state.documentId = none ↔
        (fp = .uploadImages ∨ fp = .docInsert)) := by
  by_cases h1 : (truthy s0.outputZipPath = true ∧ env.zipExists = true)
      ∧ env.failAt = some .uploadImages
  · simp only [persistenceProcess, persistExcept, h1, if_pos] at hfail ⊢
    simp at hfail
    subst hfail
    simp [hq, hd]
  · by_cases h2 : truthy (if truthy s0.cleanedMarkdown then s0.cleanedMarkdown
        else env.zipMarkdown) = false
    · simp [persistenceProcess, h1, h2] at hfail
    · by_cases h3 : env.failAt = some .docInsert
      · simp only [persistenceProcess, persistExcept, h1, h2, h3, if_neg, if_pos,
          not_false_eq_true] at hfail ⊢
        simp at hfail
        subst hfail
        simp [hq, hd]
      · rcases hf : env.failAt with _ | fp'
        · simp [persistenceProcess, h1, h2, h3, hf] at hfail
        · cases fp' with
          | uploadImages =>
            have hz : ¬ (truthy s0.outputZipPath = true ∧ env.zipExists = true) :=
              fun hz => h1 ⟨hz, hf⟩
            simp [persistenceProcess, h1, h2, h3, hf, hz] at hfail
          | docInsert => exact absurd hf h3
          | questionInsert i =>
            by_cases hi : i < env.questionsData.length
            · simp only [persistenceProcess, persistExcept, h1, h2, h3, hf, hi,
                if_neg, if_pos, not_false_eq_true] at hfail ⊢
              simp at hfail
              subst hfail
              simp [hq]
            · simp [persistenceProcess, h1, h2, h3, hf, hi] at hfail
          | commit =>
            simp only [persistenceProcess, persistExcept, h1, h2, h3, hf,
              if_neg, not_false_eq_true] at hfail ⊢
            simp at hfail
            subst hfail
            simp [hq]

/-- Witness for `persistence_failure_rollback`: a document-flush failure
rolls back and leaves `document_id` unset; a commit failure rolls back, sets
the error message and leaves `question_ids` unset. -/
theorem persistence_failure_rollback_witness :
    (persistenceProcess { persistCexEnv with failAt := some .docInsert }
      persistCexState).rolledBack = true
    ∧ (persistenceProcess { persistCexEnv with failAt := some .docInsert }
      persistCexState).state.documentId = none
    ∧ (persistenceProcess persistCexEnv persistCexState).state.questionIds = none
    ∧ (persistenceProcess persistCexEnv persistCexState).state.errorMessage.isSome = true := by
  have h1 := persistence_failure_rollback { persistCexEnv with failAt := some .docInsert }
    persistCexState .docInsert rfl rfl rfl
  have h2 := persistence_failure_rollback persistCexEnv persistCexState .commit rfl rfl rfl
  exact ⟨h1.1, h1.2.2.2.2.2.2.mpr (Or.inr rfl), h2.2.2.2.2.2.1, h2.2.2.1⟩

/-- **C10.** When the persistence stage finds no Markdown at all (no truthy
`cleaned_markdown` on the state and no `.md` entry in the output ZIP), it
returns the state with status `completed`, commits no Document or Question
rows, rolls nothing back, and leaves `error_message`, `document_id` and
`question_ids` untouched — a silent success without output. -/
theorem persistence_no_markdown_silent (env : PEnv) (s0 : PState)
    (hclean : truthy s0.cleanedMarkdown = false)
    (hzipmd : truthy env.zipMarkdown = false)
    (hupload : env.failAt ≠ some .uploadImages) :
    (persistenceProcess env s0).state.status = "completed"
    ∧ (persistenceProcess env s0).committedDocs = 0
    ∧ (persistenceProcess env s0).committedQuestions = 0
    ∧ (persistenceProcess env s0).rolledBack = false
    ∧ (persistenceProcess env s0).state.errorMessage = s0.errorMessage
    ∧ (persistenceProcess env s0).state.documentId = s0.documentId
    ∧ (persistenceProcess env s0).state.questionIds = s0.questionIds := by
  have h1 : ¬ ((truthy s0.outputZipPath = true ∧ env.zipExists = true)
      ∧ env.failAt = some .uploadImages) := fun h => hupload h.2
  have h2 : truthy (if truthy s0.cleanedMarkdown then s0.cleanedMarkdown
      else env.zipMarkdown) = false := by
    rw [if_neg]
    · exact hzipmd
    · simp [hclean]
  simp [persistenceProcess, h1, h2]

/-- Witness for `persistence_no_markdown_silent`: a ZIP with images but no
`.md` entry and no cleaned markdown completes silently. -/
theorem persistence_no_markdown_silent_witness :
    (persistenceProcess { persistCexEnv with zipMarkdown := none, failAt := none }
      persistCexState).state.status = "completed"
    ∧ (persistenceProcess { persistCexEnv with zipMarkdown := none, failAt := none }
      persistCexState).committedDocs = 0
    ∧ (persistenceProcess { persistCexEnv with zipMarkdown := none, failAt := none }
      persistCexState).state.errorMessage = none
    ∧ (persistenceProcess { persistCexEnv with zipMarkdown := none, failAt := none }
      persistCexState).state.documentId = none := by
  have h := persistence_no_markdown_silent
    { persistCexEnv with zipMarkdown := none, failAt := none } persistCexState
    rfl rfl (by simp)
  exact ⟨h.1, h.2.1, h.2.2.2.2.1, h.2.2.2.2.2.1⟩

/-! ## Robust JSON parsers (`parse_json_safely`, `app/tools/json_tools.py`) -/

/-- The exceptions relevant to the parsers: `json.JSONDecodeError` versus any
other exception. -/
inductive PyExc where
  | jsonDecodeError (msg : String)
  | otherError (msg : String)
deriving DecidableEq, Repr

/-- What `json.loads` can return, with dicts represented by `α`. -/
inductive JsonVal (α : Type) where
  | list (xs : List α)
  | dict (d : α)
  | scalar

/-- Index of the first occurrence of `c` (Python `str.find`, `none` for -1). -/
def findIdx (c : Char) : List Char → Option Nat
  | [] => none
  | x :: xs => if x = c then some 0 else (findIdx c xs).map (· + 1)

/-- Index of the last occurrence of `c` (Python `str.rfind`, `none` for -1). -/
def rfindIdx (c : Char) (l : List Char) : Option Nat :=
  (findIdx c l.reverse).map (fun i => l.length - 1 - i)

/-- Python slice `text[s:e]`. -/
def pySlice (l : List Char) (s e : Nat) : String :=
  String.mk ((l.drop s).take (e - s))

/-- The fence-stripping prelude shared by `parse_json_array` and
`_parse_questions_json`: strip, drop a leading ```` ```json ````/```` ``` ````
marker, drop a trailing ```` ``` ````, strip again. -/
def stripCodeFences (t : String) : String :=
  let t := t.trim
  let t := if t.startsWith "```json" then t.drop 7
           else if t.startsWith "```" then t.drop 3 else t
  let t := if t.endsWith "```" then t.dropRight 3 else t
  t.trim

/-- The bracket-locating core of `parse_json_array`, over the fence-stripped
character list: locate the outermost `[` … `]` span, hand it to `json.loads`,
and keep the result only when it is a list. -/
def parseJsonArrayCore {α : Type} (loads : String → Except PyExc (JsonVal α))
    (textData : List Char) : Except PyExc (List α) :=
  match findIdx '[' textData, rfindIdx ']' textData with
  | some s, some r =>
    if s < r + 1 then
      match loads (pySlice textData s (r + 1)) with
      | .ok (.list xs) => .ok xs
      | .ok _ => .ok []
      | .error e => .error e
    else .ok []
  | some _, none => .ok []
  | none, _ => .ok []

/-- The `try` body of `parse_json_array`: strip fences, then run the
bracket-locating core. -/
def parseJsonArrayBody {α : Type} (loads : String → Except PyExc (JsonVal α))
    (responseText : String) : Except PyExc (List α) :=
  parseJsonArrayCore loads (stripCodeFences responseText).data

/-- `parse_json_array`: the body wrapped in
`except json.JSONDecodeError` / `except Exception`, both returning `[]` —
every exception is caught. -/
def parseJsonArray {α : Type} (loads : String → Except PyExc (JsonVal α))
    (responseText : String) : Except PyExc (List α) :=
  match parseJsonArrayBody loads responseText with
  | .ok xs => .ok xs
  | .error _ => .ok []

/-- Strategy 4 of `parse_json_safely`: regex-extract the known top-level
keys and synthesize a partial result; `passed` falls back to
`score >= 70`; the dict is returned only when a `score` or `passed` was
found.  The four regex searches are pure total string functions, passed in
as parameters. -/
def regexFallback (extractScore : String → Option Int)
    (extractPassed : String → Option Bool)
    (extractIssues : String → Option (List String))
    (extractRec : String → Option String) (jsonStr : String) : Option LLMParsed :=
  let score := extractScore jsonStr
  let passed :=
    match extractPassed jsonStr with
    | some b => some b
    | none =>
      match score with
      | some sc => some (decide (70 ≤ sc))
      | none => none
  if score.isSome ∨ passed.isSome then
    some { score := score
           passed := passed
           issues := some ((extractIssues jsonStr).getD [])
           recommendation := some ((extractRec jsonStr).getD "")
           otherKeys := false }
  else none

/-- `parse_json_safely`: locate the outermost `{` … `}` span (else `None`),
try `json.loads` as-is, then on a `JSONDecodeError` retry on the repaired
string, then fall back to regex extraction; the first two strategies catch
only `json.JSONDecodeError`, so any other exception from `json.loads`
propagates. -/
def parseJsonSafely (loads : String → Except PyExc LLMParsed)
    (repair : String → String)
    (extractScore : String → Option Int) (extractPassed : String → Option Bool)
    (extractIssues : String → Option (List String))
    (extractRec : String → Option String)
    (responseText : String) : Except PyExc (Option LLMParsed) :=
  match findIdx '{' responseText.data, rfindIdx '}' responseText.data with
  | some s, some r =>
    if s < r + 1 then
      let jsonStr := pySlice responseText.data s (r + 1)
      match loads jsonStr with
      | .ok d => .ok (some d)
      | .error (.jsonDecodeError _) =>
        match loads (repair jsonStr) with
        | .ok d => .ok (some d)
        | .error (.jsonDecodeError _) =>
          .ok (regexFallback extractScore extractPassed extractIssues extractRec jsonStr)
        | .error e => .error e
      | .error e => .error e
    else .ok none
  | some _, none => .ok none
  | none, _ => .ok none

/-- Unfolding equation for `parseJsonArrayCore`. -/
theorem parseJsonArrayCore_eq {α : Type} (loads : String → Except PyExc (JsonVal α))
    (l : List Char) :
    parseJsonArrayCore loads l =
      match findIdx '[' l, rfindIdx ']' l with
      | some s, some r =>
        if s < r + 1 then
          match loads (pySlice l s (r + 1)) with
          | .ok (.list xs) => .ok xs
          | .ok _ => .ok []
          | .error e => .error e
        else .ok []
      | some _, none => .ok []
      | none, _ => .ok [] := rfl

/-- Unfolding equation for `parseJsonSafely`. -/
theorem parseJsonSafely_eq (loads : String → Except PyExc LLMParsed)
    (repair : String → String)
    (eS : String → Option Int) (eP : String → Option Bool)
    (eI : String → Option (List String)) (eR : String → Option String)
    (t : String) :
    parseJsonSafely loads repair eS eP eI eR t =
      match findIdx '{' t.data, rfindIdx '}' t.data with
      | some s, some r =>
        if s < r + 1 then
          match loads (pySlice t.data s (r + 1)) with
          | .ok d => .ok (some d)
          | .error (.jsonDecodeError _) =>
            match loads (repair (pySlice t.data s (r + 1))) with
            | .ok d => .ok (some d)
            | .error (.jsonDecodeError _) =>
              .ok (regexFallback eS eP eI eR (pySlice t.data s (r + 1)))
            | .error e => .error e
          | .error e => .error e
        else .ok none
      | some _, none => .ok none
      | none, _ => .ok none := rfl

theorem parseJsonArray_never_error {α : Type} (loads : String → Except PyExc (JsonVal α))
    (t : String) : ∃ xs : List α, parseJsonArray loads t = .ok xs := by
  cases h : parseJsonArrayBody loads t with
  | ok xs => exact ⟨xs, by unfold parseJsonArray; rw [h]⟩
  | error e => exact ⟨[], by unfold parseJsonArray; rw [h]⟩

theorem parseJsonArrayCore_fail {α : Type} (loads : String → Except PyExc (JsonVal α))
    (l : List Char)
    (hfail : ∀ s, ∃ m, loads s = .error (.jsonDecodeError m)) :
    parseJsonArrayCore loads l = .ok [] ∨ ∃ e, parseJsonArrayCore loads l = .error e := by
  rw [parseJsonArrayCore_eq]
  cases hfs : findIdx '[' l with
  | none => left; rfl
  | some s =>
    cases hfr : rfindIdx ']' l with
    | none => left; rfl
    | some r =>
      by_cases hsr : s < r + 1
      · obtain ⟨m, hm⟩ := hfail (pySlice l s (r + 1))
        right
        exact ⟨.jsonDecodeError m, by simp only [hsr, if_true, hm, reduceIte]⟩
      · left
        simp only [hsr, reduceIte]

/-- **C8.** For every input string the robust parsers never raise: the array
parser always returns `.ok` (its two `except` clauses catch everything) and
yields `[]` when `json.loads` fails everywhere; the object parser always
returns `.ok` provided `json.loads` only ever raises `JSONDecodeError` (its
documented failure mode), and yields `none` when `json.loads` fails
everywhere and the regex fallback finds neither a score nor a passed flag. -/
theorem json_parsers_never_raise
    {α : Type} (loadsA : String → Except PyExc (JsonVal α))
    (loadsO : String → Except PyExc LLMParsed) (repair : String → String)
    (eS : String → Option Int) (eP : String → Option Bool)
    (eI : String → Option (List String)) (eR : String → Option String)
    (text : String)
    (hO : ∀ s m, loadsO s ≠ .error (.otherError m)) :
    (∃ xs : List α, parseJsonArray loadsA text = .ok xs)
    ∧ ((∀ s, ∃ m, loadsA s = .error (.jsonDecodeError m)) →
        parseJsonArray loadsA text = .ok [])
    ∧ (∃ d : Option LLMParsed,
        parseJsonSafely loadsO repair eS eP eI eR text = .ok d)
    ∧ ((∀ s, ∃ m, loadsO s = .error (.jsonDecodeError m)) →
        (∀ s, eS s = none) → (∀ s, eP s = none) →
        parseJsonSafely loadsO repair eS eP eI eR text = .ok none) := by
  refine ⟨parseJsonArray_never_error loadsA text, ?_, ?_, ?_⟩
  · intro hfail
    rcases parseJsonArrayCore_fail loadsA (stripCodeFences text).data hfail with h | ⟨e, h⟩
    · unfold parseJsonArray parseJsonArrayBody
      rw [h]
    · unfold parseJsonArray parseJsonArrayBody
      rw [h]
  · rw [parseJsonSafely_eq]
    cases hfs : findIdx '{' text.data with
    | none => exact ⟨none, rfl⟩
    | some s =>
      cases hfr : rfindIdx '}' text.data with
      | none => exact ⟨none, rfl⟩
      | some r =>
        by_cases hsr : s < r + 1
        · cases h1 : loadsO (pySlice text.data s (r + 1)) with
          | ok d => exact ⟨some d, by simp only [hsr, reduceIte, h1]⟩
          | error e =>
            cases e with
            | jsonDecodeError m =>
              cases h2 : loadsO (repair (pySlice text.data s (r + 1))) with
              | ok d => exact ⟨some d, by simp only [hsr, reduceIte, h1, h2]⟩
              | error e2 =>
                cases e2 with
                | jsonDecodeError m2 =>
                  exact ⟨regexFallback eS eP eI eR (pySlice text.data s (r + 1)),
                    by simp only [hsr, reduceIte, h1, h2]⟩
                | otherError m2 => exact absurd h2 (hO _ m2)
            | otherError m => exact absurd h1 (hO _ m)
        · exact ⟨none, by simp only [hsr, reduceIte]⟩
  · intro hfail hs hp
    rw [parseJsonSafely_eq]
    cases hfs : findIdx '{' text.data with
    | none => rfl
    | some s =>
      cases hfr : rfindIdx '}' text.data with
      | none => rfl
      | some r =>
        by_cases hsr : s < r + 1
        · obtain ⟨m1, h1⟩ := hfail (pySlice text.data s (r + 1))
          obtain ⟨m2, h2⟩ := hfail (repair (pySlice text.data s (r + 1)))
          have hrf : regexFallback eS eP eI eR (pySlice text.data s (r + 1)) = none := by
            simp [regexFallback, hs, hp]
          simp only [hsr, reduceIte, h1, h2, hrf]
        · simp only [hsr, reduceIte]

/-- Witness for `json_parsers_never_raise`: a loader that always raises
`JSONDecodeError` and a regex fallback that finds nothing give `.ok []` from
the array parser and `.ok none` from the object parser on a bracketed
non-JSON input. -/
theorem json_parsers_never_raise_witness :
    parseJsonArray (α := Unit) (fun _ => .error (.jsonDecodeError "bad"))
      "[ not json ] and { not json }" = .ok []
    ∧ parseJsonSafely (fun _ => .error (.jsonDecodeError "bad")) id
      (fun _ => none) (fun _ => none) (fun _ => none) (fun _ => none)
      "[ not json ] and { not json }" = .ok none := by
  have h := json_parsers_never_raise (α := Unit)
    (fun _ => .error (.jsonDecodeError "bad"))
    (fun _ => .error (.jsonDecodeError "bad")) id
    (fun _ => none) (fun _ => none) (fun _ => none) (fun _ => none)
    "[ not json ] and { not json }"
    (fun s m hc => by simp at hc)
  exact ⟨h.2.1 (fun s => ⟨"bad", rfl⟩),
         h.2.2.2 (fun s => ⟨"bad", rfl⟩) (fun s => rfl) (fun s => rfl)⟩

/-! ## Document type detection (`determine_document_type`,
`app/agents/ingestion_agent.py`) -/

/-- Prefix of `l` strictly before the first occurrence of `c` (the whole
list when `c` does not occur). -/
def takeUntilChar (c : Char) : List Char → List Char
  | [] => []
  | x :: xs => if x = c then [] else x :: takeUntilChar c xs

/-- First occurrence of `c` at an index ≥ `start`. -/
def findIdxFrom (c : Char) (l : List Char) (start : Nat) : Option Nat :=
  (findIdx c (l.drop start)).map (· + start)

/-- A scheme character per `urllib.parse`: ASCII letter, digit, `+`, `-`,
`.`. -/
def isSchemeChar (c : Char) : Bool :=
  c.isAlpha || c.isDigit || c = '+' || c = '-' || c = '.'

/-- The `urlsplit` scheme split: a leading `scheme:` is recognised when the
colon is preceded by a letter followed by scheme characters; returns the
lower-cased scheme and the remainder. -/
def splitScheme (l : List Char) : String × List Char :=
  match findIdx ':' l with
  | some i =>
    if 0 < i ∧ (l.take 1).all Char.isAlpha ∧ ((l.take i).drop 1).all isSchemeChar then
      (String.mk ((l.take i).map Char.toLower), l.drop (i + 1))
    else ("", l)
  | none => ("", l)

/-- The `urlsplit` netloc split, after query and fragment are gone: a
leading `//` swallows everything up to the next `/`; returns the path. -/
def splitNetloc (l : List Char) : List Char :=
  match l with
  | '/' :: '/' :: rest => rest.drop (takeUntilChar '/' rest).length
  | _ => l

/-- `urllib.parse._splitparams` on the path: drop from the first `;` at or
after the last `/` (or the first `;` when there is no `/`). -/
def pySplitParams (l : List Char) : List Char :=
  match rfindIdx '/' l with
  | some k =>
    match findIdxFrom ';' l k with
    | some i => l.take i
    | none => l
  | none =>
    match findIdx ';' l with
    | some i => l.take i
    | none => l

/-- `urllib.parse.uses_params`: schemes whose path gets the `;params`
split. -/
def usesParams : List String :=
  ["", "ftp", "hdl", "prospero", "http", "imap", "https", "shttp", "rtsp",
   "rtspu", "sip", "sips", "mms", "sftp", "tel"]

/-- The `path` component of `urllib.parse.urlparse(url)`: drop the fragment
(from the first `#`), then the query (from the first `?`), split off the
scheme and the `//netloc`, and for params-using schemes split off
`;params`. -/
def pyUrlPath (url : String) : List Char :=
  let l := takeUntilChar '?' (takeUntilChar '#' url.data)
  let rest := (splitScheme l).2
  let path := splitNetloc rest
  if usesParams.contains (splitScheme l).1 ∧ path.contains ';' then pySplitParams path
  else path

/-- `pathlib.PurePosixPath(path).name`: the last path component, with empty
and `.` components dropped. -/
def pathName (p : List Char) : List Char :=
  (((p.splitOn '/').filter (fun c => !(c == []) && !(c == ['.']))).getLast?).getD []

/-- `pathlib.PurePosixPath(name).suffix`: from the last dot, provided it is
neither the first nor the last character. -/
def pathSuffix (name : List Char) : List Char :=
  match rfindIdx '.' name with
  | some i => if 0 < i ∧ i < name.length - 1 then name.drop i else []
  | none => []

/-- Python `str.lstrip('.')`. -/
def lstripDots : List Char → List Char
  | [] => []
  | c :: xs => if c = '.' then lstripDots xs else c :: xs

/-- `extension = Path(source_path).suffix.lower()`, then
`ext = extension.lstrip('.')`. -/
def extOf (sourcePath : List Char) : String :=
  String.mk (lstripDots ((pathSuffix sourcePath).map Char.toLower))

/-- The fixed `extension_map` from `determine_document_type`. -/
def extensionMap (ext : String) : Option String :=
  match ext with
  | "docx" => some "docx"
  | "doc" => some "docx"
  | "pptx" => some "pptx"
  | "ppt" => some "pptx"
  | "xlsx" => some "xlsx"
  | "xls" => some "xlsx"
  | "html" => some "html"
  | "htm" => some "html"
  | "pdf" => some "pdf"
  | "md" => some "md"
  | "markdown" => some "md"
  | "asciidoc" => some "asciidoc"
  | "adoc" => some "asciidoc"
  | "csv" => some "csv"
  | "xml" => some "xml_uspto"
  | "jpg" | "jpeg" | "png" | "gif" | "bmp" | "webp" | "svg" | "tiff" | "tif"
  | "ico" => some "image"
  | "mp3" | "wav" | "ogg" | "flac" | "aac" | "m4a" | "wma" => some "audio"
  | "vtt" => some "vtt"
  | "json" => some "json_docling"
  | _ => none

/-- Is `sub` a contiguous sublist of `l`? (Python `in` on strings.) -/
def containsSub (sub : List Char) : List Char → Bool
  | [] => sub.isPrefixOf []
  | x :: xs => sub.isPrefixOf (x :: xs) || containsSub sub xs

/-- The XML refinement: path keywords pick the concrete XML kind. -/
def xmlRefine (pathLower : List Char) : String :=
  if containsSub "uspto".data pathLower || containsSub "patent".data pathLower then
    "xml_uspto"
  else if containsSub "jats".data pathLower then "xml_jats"
  else if containsSub "mets".data pathLower || containsSub "gbs".data pathLower then
    "mets_gbs"
  else "xml_uspto"

/-- The URL branch of `determine_document_type`: take the last component of
the URL path, look its extension up in the fixed table, and disambiguate
`xml` by keywords of the (lower-cased) full path. -/
def detectFromUrlPath (path : List Char) : String :=
  let sourcePath := pathName path
  if sourcePath = [] then "unknown"
  else
    let ext := extOf sourcePath
    if ext = "xml" then xmlRefine (path.map Char.toLower)
    else (extensionMap ext).getD "unknown"

/-- `determine_document_type(url, filename)`: the filename wins when
supplied; otherwise the URL path is used; the `xml` keyword check prefers
the URL path whenever a URL is present. -/
def determineDocumentType (url : String) (filename : String) : String :=
  if filename ≠ "" then
    let sourcePath := filename.data
    let ext := extOf sourcePath
    if ext = "xml" then
      let pathToCheck := if url ≠ "" then pyUrlPath url else sourcePath
      xmlRefine (pathToCheck.map Char.toLower)
    else (extensionMap ext).getD "unknown"
  else if url ≠ "" then detectFromUrlPath (pyUrlPath url)
  else "unknown"

theorem takeUntilChar_not_mem {c : Char} {l : List Char} (h : c ∉ l) :
    takeUntilChar c l = l := by
  induction l with
  | nil => rfl
  | cons x xs ih =>
    simp only [List.mem_cons, not_or] at h
    have hxc : ¬ (x = c) := fun hx => h.1 hx.symm
    simp [takeUntilChar, hxc, ih h.2]

theorem takeUntilChar_append {c : Char} {l1 : List Char} (l2 : List Char)
    (h : c ∉ l1) :
    takeUntilChar c (l1 ++ l2) = l1 ++ takeUntilChar c l2 := by
  induction l1 with
  | nil => rfl
  | cons x xs ih =>
    simp only [List.mem_cons, not_or] at h
    have hxc : ¬ (x = c) := fun hx => h.1 hx.symm
    simp [takeUntilChar, hxc, ih h.2]

/-- Appending `?query` to a URL that contains neither `?` nor `#` leaves the
parsed path unchanged. -/
theorem pyUrlPath_append_query (u q : String)
    (h1 : '?' ∉ u.data) (h2 : '#' ∉ u.data) :
    pyUrlPath (u ++ "?" ++ q) = pyUrlPath u := by
  unfold pyUrlPath
  have hdata : (u ++ "?" ++ q).data = u.data ++ '?' :: q.data := by
    simp [String.data_append]
  rw [hdata, takeUntilChar_append _ h2]
  have hq : takeUntilChar '#' ('?' :: q.data) = '?' :: takeUntilChar '#' q.data := by
    simp [takeUntilChar]
  rw [hq, takeUntilChar_append _ h1]
  have hq2 : takeUntilChar '?' ('?' :: takeUntilChar '#' q.data) = [] := by
    simp [takeUntilChar]
  rw [hq2, List.append_nil, takeUntilChar_not_mem h2, takeUntilChar_not_mem h1]

/-- The URL branch of `determine_document_type` is exactly the table-based
function of the parsed URL path. -/
theorem determineDocumentType_eq_path (u : String) :
    determineDocumentType u "" = detectFromUrlPath (pyUrlPath u) := by
  by_cases hu : u = ""
  · subst hu; rfl
  · simp [determineDocumentType, hu]

/-- **C9.** With no separate filename, document-type detection is a function
of the URL's path component only: it equals the fixed extension-table lookup
on the parsed path (with XML disambiguated by path keywords), two URLs with
the same parsed path detect identically, and appending query parameters to a
URL never changes the detected kind. -/
theorem document_type_path_only :
    (∀ u : String, determineDocumentType u "" = detectFromUrlPath (pyUrlPath u))
    ∧ (∀ u v : String, pyUrlPath u = pyUrlPath v →
        determineDocumentType u "" = determineDocumentType v "")
    ∧ (∀ u q : String, '?' ∉ u.data → '#' ∉ u.data →
        determineDocumentType (u ++ "?" ++ q) "" = determineDocumentType u "")
    ∧ (∀ p : List Char, extOf (pathName p) = "xml" →
        detectFromUrlPath p = xmlRefine (p.map Char.toLower)) := by
  refine ⟨determineDocumentType_eq_path, ?_, ?_, ?_⟩
  · intro u v h
    rw [determineDocumentType_eq_path, determineDocumentType_eq_path, h]
  · intro u q h1 h2
    rw [determineDocumentType_eq_path, determineDocumentType_eq_path,
      pyUrlPath_append_query u q h1 h2]
  · intro p hx
    have hne : pathName p ≠ [] := by
      intro h
      rw [h] at hx
      exact absurd hx (by decide)
    simp [detectFromUrlPath, hne, hx]

/-- Witness for `document_type_path_only`: a signed-URL query string does not
change the detected kind of a `.pdf` path, and an `.xml` path is
disambiguated by its `patent` keyword. -/
theorem document_type_path_only_witness :
    determineDocumentType
      "https://storage.googleapis.com/bk/u1/file.pdf?X-Goog-Algorithm=GOOG4-RSA-SHA256" ""
      = determineDocumentType "https://storage.googleapis.com/bk/u1/file.pdf" ""
    ∧ determineDocumentType "https://storage.googleapis.com/bk/u1/file.pdf" "" = "pdf"
    ∧ detectFromUrlPath "/patent/doc.xml".data
      = xmlRefine ("/patent/doc.xml".data.map Char.toLower)
    ∧ determineDocumentType "http://h/patent/doc.xml" "" = "xml_uspto" := by
  refine ⟨?_, by rfl, ?_, by rfl⟩
  · exact document_type_path_only.2.2.1 "https://storage.googleapis.com/bk/u1/file.pdf"
      "X-Goog-Algorithm=GOOG4-RSA-SHA256" (by decide) (by decide)
  · exact document_type_path_only.2.2.2 "/patent/doc.xml".data (by decide)
